import Mathlib

/-!
Shallow embedding of the pipigo scheduler core (`src/main.go`) and proofs
about its registry, trigger-engine wrapper, dispatcher and bootstrap loader.

Go maps (`tasks`, `cronIDs`) are modelled as association lists with Go's
single-binding semantics; the robfig cron engine is modelled as its set of
active entries plus a fresh-id counter; external collaborators (cron
expression parsing, URL parsing inside `http.NewRequest`, JSON decoding of
the header string, the network) are modelled as explicit parameters or
oracle inputs, exactly at the call sites where `main.go` invokes them.
-/

namespace Pipigo

/-! ### Association-list maps with Go map semantics -/

/-- Lookup in an association map (`m[k]` on a Go map). -/
def mapLookup [BEq α] (m : List (α × β)) (k : α) : Option β :=
  match m with
  | [] => none
  | (k₁, v₁) :: rest => if k₁ == k then some v₁ else mapLookup rest k

/-- Insert/overwrite a binding (`m[k] = v` on a Go map). -/
def mapInsert [BEq α] (m : List (α × β)) (k : α) (v : β) : List (α × β) :=
  match m with
  | [] => [(k, v)]
  | (k₁, v₁) :: rest =>
      if k₁ == k then (k, v) :: rest else (k₁, v₁) :: mapInsert rest k v

/-- Remove a key (`delete(m, k)` on a Go map). -/
def mapErase [BEq α] (m : List (α × β)) (k : α) : List (α × β) :=
  match m with
  | [] => []
  | (k₁, v₁) :: rest =>
      if k₁ == k then mapErase rest k else (k₁, v₁) :: mapErase rest k

theorem mapLookup_insert [BEq α] [LawfulBEq α] (m : List (α × β)) (k k₁ : α) (v : β) :
    mapLookup (mapInsert m k v) k₁ = if k == k₁ then some v else mapLookup m k₁ := by
  induction m with
  | nil => simp [mapInsert, mapLookup]
  | cons p rest ih =>
      obtain ⟨k₂, v₂⟩ := p
      by_cases h : k₂ = k
      · subst h
        simp only [mapInsert, beq_self_eq_true, if_true, mapLookup]
        by_cases h₁ : k₂ = k₁ <;> simp [beq_iff_eq, h₁]
      · simp only [mapInsert, beq_iff_eq, h, if_false, mapLookup, ih]
        by_cases h₁ : k₂ = k₁
        · subst h₁
          have : ¬ (k = k₂) := fun hc => h hc.symm
          simp [beq_iff_eq, this]
        · simp [beq_iff_eq, h₁]

theorem mapLookup_erase [BEq α] [LawfulBEq α] (m : List (α × β)) (k k₁ : α) :
    mapLookup (mapErase m k) k₁ = if k == k₁ then none else mapLookup m k₁ := by
  induction m with
  | nil => simp [mapErase, mapLookup]
  | cons p rest ih =>
      obtain ⟨k₂, v₂⟩ := p
      by_cases h : k₂ = k
      · subst h
        by_cases h₁ : k₂ = k₁
        · subst h₁; simp [mapErase, mapLookup, ih]
        · simp [mapErase, mapLookup, ih, beq_iff_eq, h₁]
      · simp only [mapErase, beq_iff_eq, h, if_false, mapLookup]
        by_cases h₁ : k₂ = k₁
        · subst h₁
          have : ¬ (k = k₂) := fun hc => h hc.symm
          simp [beq_iff_eq, this, h]
        · simp [beq_iff_eq, h₁, ih]

/-! ### Data model (`Task`, `Log` structs of `main.go`) -/

/-- `Task` struct of `main.go` (the gorm/display-only fields `Logs` and
`NextRun` are owned by the listing path and carry no registry state). -/
structure Task where
  ID : Int
  Name : String
  CronExpr : String
  URL : String
  Method : String
  Headers : String
  Body : String
  Timeout : Int
  deriving Repr, DecidableEq

/-- `Log` struct of `main.go`: one execution record.  `ID` is the
database-assigned autoincrement key; `Time` is an abstract timestamp. -/
structure Log where
  ID : Int
  TaskID : Int
  Time : Nat
  StatusText : String
  ResponseBody : String
  deriving Repr, DecidableEq

/-! ### Clock/Trigger engine (robfig cron wrapper) -/

/-- One active timer entry of the cron engine: its `cron.EntryID`, the
expression it fires on, and the task id its registered callback closes over
(`func() { runTask(t.ID) }` at `main.go:161`). -/
structure CronEntry where
  eid : Nat
  expr : String
  taskId : Int
  deriving Repr, DecidableEq

/-- The cron engine's mutable state: a fresh-entry-id counter and the set of
active entries.  `robfig/cron` hands out strictly increasing `EntryID`s. -/
structure CronEngine where
  nextId : Nat
  entries : List CronEntry
  deriving Repr, DecidableEq

/-- `c.AddFunc(expr, func(){ runTask(tid) })`: parses the expression (the
parser is the external collaborator, modelled by `validCron`); on success
adds an entry and returns its id, on failure returns an error. -/
def addFunc (validCron : String → Bool) (e : CronEngine) (expr : String) (tid : Int) :
    Except String (Nat × CronEngine) :=
  if validCron expr then
    .ok (e.nextId, ⟨e.nextId + 1, e.entries ++ [⟨e.nextId, expr, tid⟩]⟩)
  else
    .error "invalid cron expression"

/-- `c.Remove(entryID)`: drops the entry with that id from the active set. -/
def removeEntry (e : CronEngine) (eid : Nat) : CronEngine :=
  ⟨e.nextId, e.entries.filter (fun en => !(en.eid == eid))⟩

/-! ### Task registry state -/

/-- The two registry maps of `main.go` (`tasks`, `cronIDs`) together with the
cron engine they are kept consistent with.  All three are the globals guarded
by `taskMutex`; operations are modelled as whole (lock-to-lock) steps. -/
structure RegState where
  tasks : List (Int × Task)
  cronIDs : List (Int × Nat)
  engine : CronEngine
  deriving Repr, DecidableEq

/-- State at process start: both maps empty, no cron entries. -/
def initState : RegState := ⟨[], [], ⟨0, []⟩⟩

/-- `registerTask` (`main.go:156-173`): stores the definition under its id,
then tries `c.AddFunc`; on parse failure prints a warning and returns (the
returned `Bool` is `false` exactly on that warning path); on success stores
the new entry id in `cronIDs`.  Note that no prior `cronIDs` entry is
removed from the engine before the new one is stored. -/
def registerTask (validCron : String → Bool) (t : Task) (s : RegState) :
    RegState × Bool :=
  let s₁ : RegState := { s with tasks := mapInsert s.tasks t.ID t }
  match addFunc validCron s₁.engine t.CronExpr t.ID with
  | .error _ => (s₁, false)
  | .ok (entryID, eng) =>
      ({ s₁ with engine := eng, cronIDs := mapInsert s₁.cronIDs t.ID entryID }, true)

/-- The `DELETE /api/tasks/:id` handler (`main.go:118-137`): looks the task
up in the database first (404 with an error body when absent), then removes
the cron entry and both map bindings, then deletes the database row (the
gorm cascade also deletes the task's execution records). -/
def deleteTaskHandler (id : Int) (dbTasks : List Task) (s : RegState) :
    Except String String × List Task × RegState :=
  match dbTasks.find? (fun t => t.ID == id) with
  | none => (.error "任务不存在", dbTasks, s)
  | some task =>
      let s₁ : RegState :=
        match mapLookup s.cronIDs task.ID with
        | some entryID =>
            { s with engine := removeEntry s.engine entryID,
                     cronIDs := mapErase s.cronIDs task.ID }
        | none => s
      let s₂ : RegState := { s₁ with tasks := mapErase s₁.tasks task.ID }
      (.ok "任务已删除", dbTasks.filter (fun t => !(t.ID == id)), s₂)

/-- The `POST /api/tasks` create handler (`main.go:92-115`), after JSON
binding has produced `req`: rejects a missing name, cron expression or URL;
defaults a non-positive timeout to 10 seconds; persists the row (`db.Create`,
whose success is the storage collaborator's `dbOk`); then registers it. -/
def createTaskHandler (validCron : String → Bool) (dbOk : Bool) (req : Task)
    (dbTasks : List Task) (s : RegState) :
    Except String Task × List Task × RegState :=
  if req.Name == "" || req.CronExpr == "" || req.URL == "" then
    (.error "任务名称、Cron表达式和URL是必填项", dbTasks, s)
  else
    let req₁ : Task := if req.Timeout ≤ 0 then { req with Timeout := 10 } else req
    if dbOk then
      let db₁ := dbTasks ++ [req₁]
      let s₁ := (registerTask validCron req₁ s).1
      (.ok req₁, db₁, s₁)
    else
      (.error "database error", dbTasks, s)

/-- `loadTasksFromDB` (`main.go:254-263`): registers every persisted task.
The loop body takes an explicit copy (`taskCopy := list[i]`) so each
registration closes over its own definition; values here are immutable, so
the fold registers exactly the element itself. -/
def loadTasksFromDB (validCron : String → Bool) (dbTasks : List Task) (s : RegState) :
    RegState :=
  dbTasks.foldl (fun s t => (registerTask validCron t s).1) s

/-- The registry state with which `main` enters the serving loop
(`r.Run`, `main.go:152`): `loadTasksFromDB` applied to the empty initial
state, completed before any handler can run. -/
def serverStartState (validCron : String → Bool) (dbTasks : List Task) : RegState :=
  loadTasksFromDB validCron dbTasks initState

/-! ### HTTP header canonicalization (net/textproto, used by `Header.Set`) -/

/-- Go `validHeaderFieldByte`: ASCII token characters of RFC 7230. -/
def isTokenChar (c : Char) : Bool :=
  c.isAlphanum ||
  [Char.ofNat 33, Char.ofNat 35, Char.ofNat 36, Char.ofNat 37, Char.ofNat 38,
   Char.ofNat 39, Char.ofNat 42, Char.ofNat 43, Char.ofNat 45, Char.ofNat 46,
   Char.ofNat 94, Char.ofNat 95, Char.ofNat 96, Char.ofNat 124,
   Char.ofNat 126].contains c

/-- One step of Go's canonicalization loop: uppercase a letter at the start
or after a hyphen, lowercase it otherwise; remember whether the next
character starts a new hyphen-separated word. -/
def canonicalStep : Bool × String → Char → Bool × String
  | (upper, acc), c =>
      let c₁ := if upper then c.toUpper else c.toLower
      (c₁ == Char.ofNat 45, acc.push c₁)

/-- Go `textproto.CanonicalMIMEHeaderKey`: returns the key unchanged when it
contains a non-token character, otherwise canonicalizes word casing. -/
def canonicalMIMEHeaderKey (s : String) : String :=
  if s.toList.all isTokenChar then (s.toList.foldl canonicalStep (true, "")).2
  else s

/-! ### Dispatcher (`runTask`, `main.go:176-238`) -/

/-- The outgoing request as `runTask` builds it: method, target URL, the
body handed to `http.NewRequest` (`nil` for GET) and the header map. -/
structure HttpRequest where
  method : String
  url : String
  body : Option String
  header : List (String × String)
  deriving Repr, DecidableEq

/-- `req.Header.Set(k, v)`: stores `v` as the sole value under the
canonicalized key. -/
def headerSet (h : List (String × String)) (k v : String) : List (String × String) :=
  mapInsert h (canonicalMIMEHeaderKey k) v

/-- External collaborators of the dispatcher: URL validation inside
`http.NewRequest` (an error message, or `none` when the URL is acceptable)
and `json.Unmarshal` of the stored header text into a string-to-string
mapping (`none` on malformed JSON; the list fixes one iteration order of
the decoded Go map). -/
structure DispatchParams where
  parseURLErr : String → Option String
  parseHeaderJSON : String → Option (List (String × String))

/-- `http.NewRequest(method, url, body)`: fails exactly when the URL does
not parse; otherwise yields a request with an empty header map. -/
def newRequest (P : DispatchParams) (method url : String) (body : Option String) :
    Except String HttpRequest :=
  match P.parseURLErr url with
  | some e => .error e
  | none => .ok ⟨method, url, body, []⟩

/-- Apply a decoded header mapping with `Header.Set` in iteration order
(`main.go:211-213`). -/
def applyHeaderList (h : List (String × String)) (hs : List (String × String)) :
    List (String × String) :=
  hs.foldl (fun h p => headerSet h p.1 p.2) h

/-- Request construction of `runTask` (`main.go:191-218`): POST uses the
stored body and gets a default JSON content type (set only when
`http.NewRequest` succeeded); any other method value falls back to GET with
no body; afterwards, when a header text is present, each decoded header
overwrites any default, and malformed header JSON only logs a warning and
leaves the request as built. -/
def buildRequest (P : DispatchParams) (t : Task) : Except String HttpRequest :=
  let base : Except String HttpRequest :=
    if t.Method == "POST" then
      match newRequest P "POST" t.URL (some t.Body) with
      | .error e => .error e
      | .ok req =>
          .ok { req with header := headerSet req.header "Content-Type" "application/json" }
    else
      newRequest P "GET" t.URL none
  match base with
  | .error e => .error e
  | .ok req =>
      if t.Headers == "" then .ok req
      else
        match P.parseHeaderJSON t.Headers with
        | some hs => .ok { req with header := applyHeaderList req.header hs }
        | none => .ok req

/-- The single network interaction of one dispatch, resolved by the
environment: `client.Do` fails, or `io.ReadAll` on the response body fails
after a status was received, or both succeed. -/
inductive NetOutcome where
  | transportErr (msg : String)
  | readErr (status : Int) (msg : String)
  | success (status : Int) (body : String)
  deriving Repr, DecidableEq

/-- Whether `runTask` resolved its id in the registry and dispatched, or
reported the task as missing. -/
inductive RunOutcome where
  | missing
  | dispatched
  deriving Repr, DecidableEq

/-- `appendLog` (`main.go:241-251`): builds one `Log` row and hands it to
the storage collaborator (`db.Create` assigns the autoincrement key,
modelled as the next position). -/
def appendLog (logs : List Log) (taskID : Int) (now : Nat)
    (statusText responseBody : String) : List Log :=
  logs ++ [⟨(logs.length : Int) + 1, taskID, now, statusText, responseBody⟩]

/-- Two's-complement wraparound into the signed 64-bit range, as Go's int64
arithmetic produces it on overflow. -/
def wrapInt64 (x : Int) : Int := (x + 2 ^ 63) % 2 ^ 64 - 2 ^ 63

/-- Result of one `runTask` invocation: the log store afterwards, whether
the task was found, and the `http.Client` timeout built at `main.go:187`
(in nanoseconds; `none` when the task was missing and no client was built).
The timeout is `time.Duration(t.Timeout) * time.Second`, an int64 product
that wraps around for huge timeout values. -/
structure RunResult where
  logs : List Log
  outcome : RunOutcome
  clientTimeoutNs : Option Int
  deriving Repr, DecidableEq

/-- `runTask` (`main.go:176-238`): resolve the id under the lock; when
absent, report the task missing and record nothing.  Otherwise build the
client with the definition's timeout as its hard deadline, construct the
request, and write exactly one record: the construction error, the
transport error, the read error with the received status, or the status
line together with the full response body. -/
def runTask (P : DispatchParams) (net : NetOutcome) (now : Nat) (id : Int)
    (s : RegState) (logs : List Log) : RunResult :=
  match mapLookup s.tasks id with
  | none => ⟨logs, .missing, none⟩
  | some t =>
      let timeoutNs : Int := wrapInt64 (t.Timeout * 1000000000)
      match buildRequest P t with
      | .error e =>
          ⟨appendLog logs t.ID now ("创建请求失败: " ++ e) "", .dispatched, some timeoutNs⟩
      | .ok _req =>
          match net with
          | .transportErr m =>
              ⟨appendLog logs t.ID now ("请求失败: " ++ m) "", .dispatched, some timeoutNs⟩
          | .readErr st m =>
              ⟨appendLog logs t.ID now
                 ("状态: " ++ toString st ++ ", 读取响应体失败: " ++ m) "",
               .dispatched, some timeoutNs⟩
          | .success st body =>
              ⟨appendLog logs t.ID now ("状态: " ++ toString st) body,
               .dispatched, some timeoutNs⟩

/-! ### Helper lemmas about the registry operations -/

theorem registerTask_snd (v : String → Bool) (t : Task) (s : RegState) :
    (registerTask v t s).2 = v t.CronExpr := by
  simp only [registerTask, addFunc]
  by_cases h : v t.CronExpr <;> simp [h]

theorem registerTask_tasks_lookup (v : String → Bool) (t : Task) (s : RegState) (k : Int) :
    mapLookup (registerTask v t s).1.tasks k
      = if t.ID == k then some t else mapLookup s.tasks k := by
  simp only [registerTask, addFunc]
  by_cases h : v t.CronExpr <;> simp [h, mapLookup_insert]

theorem registerTask_cronIDs_lookup (v : String → Bool) (t : Task) (s : RegState) (k : Int) :
    mapLookup (registerTask v t s).1.cronIDs k
      = if v t.CronExpr then
          (if t.ID == k then some s.engine.nextId else mapLookup s.cronIDs k)
        else mapLookup s.cronIDs k := by
  simp only [registerTask, addFunc]
  by_cases h : v t.CronExpr <;> simp [h, mapLookup_insert]

theorem registerTask_invalid (v : String → Bool) (t : Task) (s : RegState)
    (h : v t.CronExpr = false) :
    registerTask v t s = ({ s with tasks := mapInsert s.tasks t.ID t }, false) := by
  simp [registerTask, addFunc, h]

theorem registerTask_engine_mono (v : String → Bool) (t : Task) (s : RegState)
    (en : CronEntry) (h : en ∈ s.engine.entries) :
    en ∈ (registerTask v t s).1.engine.entries := by
  simp only [registerTask, addFunc]
  by_cases hv : v t.CronExpr
  · simp only [hv, if_true]
    exact List.mem_append_left _ h
  · simpa [hv] using h

theorem registerTask_engine_new (v : String → Bool) (t : Task) (s : RegState)
    (h : v t.CronExpr = true) :
    (⟨s.engine.nextId, t.CronExpr, t.ID⟩ : CronEntry)
      ∈ (registerTask v t s).1.engine.entries := by
  simp [registerTask, addFunc, h]

theorem loadTasks_cons (v : String → Bool) (a : Task) (rest : List Task) (s : RegState) :
    loadTasksFromDB v (a :: rest) s = loadTasksFromDB v rest (registerTask v a s).1 := rfl

theorem loadTasks_tasks_frame (v : String → Bool) (db : List Task) (s : RegState) (k : Int)
    (h : ∀ t ∈ db, t.ID ≠ k) :
    mapLookup (loadTasksFromDB v db s).tasks k = mapLookup s.tasks k := by
  induction db generalizing s with
  | nil => rfl
  | cons a rest ih =>
      rw [loadTasks_cons, ih _ (fun t ht => h t (List.mem_cons_of_mem a ht)),
        registerTask_tasks_lookup]
      have : ¬ (a.ID = k) := h a (List.mem_cons_self a rest)
      simp [beq_iff_eq, this]

theorem loadTasks_engine_mono (v : String → Bool) (db : List Task) (s : RegState)
    (en : CronEntry) (h : en ∈ s.engine.entries) :
    en ∈ (loadTasksFromDB v db s).engine.entries := by
  induction db generalizing s with
  | nil => exact h
  | cons a rest ih =>
      rw [loadTasks_cons]
      exact ih _ (registerTask_engine_mono v a s en h)

theorem loadTasks_resolves (v : String → Bool) (db : List Task) (s : RegState)
    (hd : db.Pairwise (fun a b => a.ID ≠ b.ID)) (t : Task) (ht : t ∈ db) :
    mapLookup (loadTasksFromDB v db s).tasks t.ID = some t ∧
    (v t.CronExpr = true → ∃ en ∈ (loadTasksFromDB v db s).engine.entries,
        en.expr = t.CronExpr ∧ en.taskId = t.ID) := by
  induction db generalizing s with
  | nil => cases ht
  | cons a rest ih =>
      rcases List.mem_cons.mp ht with h | h
      · subst h
        constructor
        · rw [loadTasks_cons,
            loadTasks_tasks_frame v rest _ t.ID
              (fun u hu => Ne.symm ((List.pairwise_cons.mp hd).1 u hu)),
            registerTask_tasks_lookup]
          simp
        · intro hv
          refine ⟨⟨s.engine.nextId, t.CronExpr, t.ID⟩, ?_, rfl, rfl⟩
          rw [loadTasks_cons]
          exact loadTasks_engine_mono v rest _ _ (registerTask_engine_new v t s hv)
      · rw [loadTasks_cons]
        exact ih (registerTask v a s).1 (List.pairwise_cons.mp hd).2 h

/-- The consistency invariant between the two registry maps: every
identifier holding a trigger-engine handle also holds a definition. -/
def RegInv (s : RegState) : Prop :=
  ∀ id : Int, (mapLookup s.cronIDs id).isSome = true →
    (mapLookup s.tasks id).isSome = true

theorem regInv_registerTask (v : String → Bool) (t : Task) (s : RegState)
    (h : RegInv s) : RegInv (registerTask v t s).1 := by
  intro id hid
  rw [registerTask_cronIDs_lookup] at hid
  rw [registerTask_tasks_lookup]
  by_cases hk : t.ID = id
  · simp [beq_iff_eq, hk]
  · simp only [beq_iff_eq, hk, if_false]
    apply h
    by_cases hv : v t.CronExpr <;> simp [hv, beq_iff_eq, hk] at hid <;> simp [hid]

theorem regInv_deleteTaskHandler (id : Int) (db : List Task) (s : RegState)
    (h : RegInv s) : RegInv (deleteTaskHandler id db s).2.2 := by
  unfold deleteTaskHandler
  cases hf : db.find? (fun t => t.ID == id) with
  | none => exact h
  | some task =>
      simp only
      cases hc : mapLookup s.cronIDs task.ID with
      | some entryID =>
          intro k hk
          simp only [hc] at hk ⊢
          rw [mapLookup_erase] at hk ⊢
          by_cases he : task.ID = k
          · simp [beq_iff_eq, he] at hk
          · simp only [beq_iff_eq, he, if_false] at hk ⊢
            exact h k hk
      | none =>
          intro k hk
          simp only [hc] at hk ⊢
          rw [mapLookup_erase]
          by_cases he : task.ID = k
          · subst he
            rw [hc] at hk
            simp at hk
          · simp only [beq_iff_eq, he, if_false]
            exact h k hk

theorem regInv_loadTasks (v : String → Bool) (db : List Task) (s : RegState)
    (h : RegInv s) : RegInv (loadTasksFromDB v db s) := by
  induction db generalizing s with
  | nil => exact h
  | cons a rest ih =>
      rw [loadTasks_cons]
      exact ih _ (regInv_registerTask v a s h)

/-- Wraparound is the identity on values already inside the signed 64-bit
range. -/
theorem wrapInt64_eq_self (x : Int) (h₁ : -(2 ^ 63) ≤ x) (h₂ : x < 2 ^ 63) :
    wrapInt64 x = x := by
  have h64 : (2 : Int) ^ 64 = 18446744073709551616 := by norm_num
  have h63 : (2 : Int) ^ 63 = 9223372036854775808 := by norm_num
  unfold wrapInt64
  rw [h64, h63]
  rw [h63] at h₁ h₂
  omega

/-! ### Helper lemmas about header application -/

/-- The value that survives for canonical key `K` after applying a header
list with `Header.Set` in order: the last entry whose canonicalized key is
`K`, if any. -/
def lastOverride (K : String) : List (String × String) → Option String
  | [] => none
  | p :: rest =>
      match lastOverride K rest with
      | some v => some v
      | none => if canonicalMIMEHeaderKey p.1 == K then some p.2 else none

theorem mapLookup_applyHeaderList (h hs : List (String × String)) (K : String) :
    mapLookup (applyHeaderList h hs) K
      = match lastOverride K hs with
        | some v => some v
        | none => mapLookup h K := by
  induction hs generalizing h with
  | nil => rfl
  | cons p rest ih =>
      rw [show applyHeaderList h (p :: rest)
            = applyHeaderList (headerSet h p.1 p.2) rest from rfl, ih]
      cases hlast : lastOverride K rest with
      | some v => simp [lastOverride, hlast]
      | none =>
          simp only [lastOverride, hlast]
          rw [headerSet, mapLookup_insert]
          by_cases hk : canonicalMIMEHeaderKey p.1 = K <;> simp [beq_iff_eq, hk]

theorem lastOverride_mem (K : String) (hs : List (String × String)) (v : String)
    (h : lastOverride K hs = some v) :
    ∃ k, (k, v) ∈ hs ∧ canonicalMIMEHeaderKey k = K := by
  induction hs with
  | nil => cases h
  | cons p rest ih =>
      simp only [lastOverride] at h
      cases hlast : lastOverride K rest with
      | some w =>
          rw [hlast] at h
          cases h
          obtain ⟨k, hm, hc⟩ := ih hlast
          exact ⟨k, List.mem_cons_of_mem p hm, hc⟩
      | none =>
          rw [hlast] at h
          by_cases hk : canonicalMIMEHeaderKey p.1 = K
          · simp only [beq_iff_eq, hk, if_true] at h
            cases h
            exact ⟨p.1, by simp, hk⟩
          · simp [beq_iff_eq, hk] at h

theorem lastOverride_isSome_of_mem (k v : String) (hs : List (String × String))
    (h : (k, v) ∈ hs) :
    (lastOverride (canonicalMIMEHeaderKey k) hs).isSome = true := by
  induction hs with
  | nil => cases h
  | cons p rest ih =>
      simp only [lastOverride]
      cases hlast : lastOverride (canonicalMIMEHeaderKey k) rest with
      | some w => simp
      | none =>
          rcases List.mem_cons.mp h with h₁ | h₁
          · rw [← h₁]
            simp
          · have := ih h₁
            rw [hlast] at this
            simp at this

/-! ### Claim theorems -/

/-- C2: every `runTask` invocation on an identifier present in the task
registry writes exactly one Execution Record, on the success path and on
every failure path alike; on an identifier absent from the registry it
writes nothing and reports the task as missing. -/
theorem runTask_exactly_one_record (P : DispatchParams) (net : NetOutcome) (now : Nat)
    (id : Int) (s : RegState) (logs : List Log) :
    (mapLookup s.tasks id = none →
      (runTask P net now id s logs).logs = logs ∧
      (runTask P net now id s logs).outcome = .missing) ∧
    (∀ t, mapLookup s.tasks id = some t →
      ∃ r, (runTask P net now id s logs).logs = logs ++ [r] ∧
        (runTask P net now id s logs).outcome = .dispatched) := by
  constructor
  · intro h
    simp [runTask, h]
  · intro t h
    simp only [runTask, h]
    cases hb : buildRequest P t with
    | error e => exact ⟨_, rfl, rfl⟩
    | ok req => cases net <;> exact ⟨_, rfl, rfl⟩

/-- C3: registering a definition whose cron expression fails to parse
returns with a warning (the scheduled flag is `false`), leaves the
definition in the definitions map, adds nothing to the handle map and
nothing to the trigger engine, and a subsequent run-now on the identifier
still resolves the task and dispatches, writing its record. -/
theorem registerTask_bad_cron (v : String → Bool) (P : DispatchParams)
    (net : NetOutcome) (now : Nat) (logs : List Log) (t : Task) (s : RegState)
    (h : v t.CronExpr = false) :
    (registerTask v t s).2 = false ∧
    mapLookup (registerTask v t s).1.tasks t.ID = some t ∧
    (registerTask v t s).1.cronIDs = s.cronIDs ∧
    (registerTask v t s).1.engine = s.engine ∧
    (runTask P net now t.ID (registerTask v t s).1 logs).outcome = .dispatched ∧
    ∃ r, (runTask P net now t.ID (registerTask v t s).1 logs).logs = logs ++ [r] := by
  have hreg := registerTask_invalid v t s h
  have hlook : mapLookup (registerTask v t s).1.tasks t.ID = some t := by
    rw [registerTask_tasks_lookup]; simp
  refine ⟨by rw [hreg], hlook, by rw [hreg], by rw [hreg], ?_, ?_⟩
  · simp only [runTask, hlook]
    cases hb : buildRequest P t with
    | error e => rfl
    | ok req => cases net <;> rfl
  · simp only [runTask, hlook]
    cases hb : buildRequest P t with
    | error e => exact ⟨_, rfl⟩
    | ok req => cases net <;> exact ⟨_, rfl⟩

/-- C7 (amended): the create operation leaves every accepted definition
with a positive timeout, substituting 10 seconds when the request's
timeout is unset or non-positive; for every definition the dispatcher
resolves, the `http.Client` it builds carries the int64-wrapped product
of that timeout with one second — which equals the definition's timeout
in nanoseconds, and hence is the hard deadline bounding connection
through response-body read, exactly when that product fits in int64. -/
theorem task_timeout_positive_and_applied (v : String → Bool) (dbOk : Bool)
    (req : Task) (db db₁ : List Task) (s s₁ : RegState) (t₁ : Task)
    (h : createTaskHandler v dbOk req db s = (.ok t₁, db₁, s₁)) :
    0 < t₁.Timeout ∧
    (req.Timeout ≤ 0 → t₁.Timeout = 10) ∧
    (0 < req.Timeout → t₁.Timeout = req.Timeout) ∧
    (∀ P net now id s₂ logs t, mapLookup s₂.tasks id = some t →
      (runTask P net now id s₂ logs).clientTimeoutNs
        = some (wrapInt64 (t.Timeout * 1000000000)) ∧
      (-(2 ^ 63) ≤ t.Timeout * 1000000000 → t.Timeout * 1000000000 < 2 ^ 63 →
        (runTask P net now id s₂ logs).clientTimeoutNs
          = some (t.Timeout * 1000000000))) := by
  have hmain : 0 < t₁.Timeout ∧ (req.Timeout ≤ 0 → t₁.Timeout = 10) ∧
      (0 < req.Timeout → t₁.Timeout = req.Timeout) := by
    unfold createTaskHandler at h
    by_cases hm : (req.Name == "" || req.CronExpr == "" || req.URL == "") = true
    · rw [if_pos hm] at h
      cases h
    · rw [if_neg hm] at h
      by_cases ht : req.Timeout ≤ 0
      · simp only [ht, if_true] at h
        cases hdb : dbOk
        · rw [hdb] at h; simp at h
        · rw [hdb] at h
          simp only [if_true] at h
          obtain ⟨h₁, -, -⟩ := Prod.mk.injEq .. ▸ h
          cases h₁
          refine ⟨by norm_num, fun _ => rfl, fun hc => absurd hc (by omega)⟩
      · simp only [ht, if_false] at h
        cases hdb : dbOk
        · rw [hdb] at h; simp at h
        · rw [hdb] at h
          simp only [if_true] at h
          obtain ⟨h₁, -, -⟩ := Prod.mk.injEq .. ▸ h
          cases h₁
          refine ⟨by omega, fun hc => absurd hc ht, fun _ => rfl⟩
  refine ⟨hmain.1, hmain.2.1, hmain.2.2, ?_⟩
  intro P net now id s₂ logs t hl
  have hgen : (runTask P net now id s₂ logs).clientTimeoutNs
      = some (wrapInt64 (t.Timeout * 1000000000)) := by
    simp only [runTask, hl]
    cases hb : buildRequest P t with
    | error e => rfl
    | ok hr => cases net <;> rfl
  exact ⟨hgen, fun h₁ h₂ => by rw [hgen, wrapInt64_eq_self _ h₁ h₂]⟩

/-- C8: the state with which `main` enters the serving loop is the bootstrap
load of every persisted definition; under it, each identifier resolves to
its own definition (each registration captured an independent copy, not a
shared loop variable), and each definition with a valid cron expression has
a trigger-engine entry firing with its own identifier. -/
theorem bootstrap_registers_each_copy (v : String → Bool) (db : List Task)
    (hd : db.Pairwise (fun a b => a.ID ≠ b.ID)) :
    serverStartState v db = loadTasksFromDB v db initState ∧
    ∀ t ∈ db,
      mapLookup (serverStartState v db).tasks t.ID = some t ∧
      (v t.CronExpr = true → ∃ en ∈ (serverStartState v db).engine.entries,
          en.expr = t.CronExpr ∧ en.taskId = t.ID) := by
  exact ⟨rfl, fun t ht => loadTasks_resolves v db initState hd t ht⟩

/-- C9: a create request missing the name, the cron expression or the URL is
rejected with an error and changes nothing: the database rows, both registry
maps and the trigger engine are exactly as before. -/
theorem createTask_missing_field (v : String → Bool) (dbOk : Bool) (req : Task)
    (db : List Task) (s : RegState)
    (h : req.Name = "" ∨ req.CronExpr = "" ∨ req.URL = "") :
    createTaskHandler v dbOk req db s
      = (.error "任务名称、Cron表达式和URL是必填项", db, s) := by
  unfold createTaskHandler
  rcases h with h | h | h <;> simp [h]

/-- C10: the handle map's key set stays a subset of the definitions map's
key set: the subset invariant holds initially and is preserved by a
complete `registerTask`, by a complete delete-handler step, and by the
bootstrap load. -/
theorem handle_keys_subset_task_keys (v : String → Bool) (t : Task) (id : Int)
    (db : List Task) (s : RegState) (h : RegInv s) :
    RegInv initState ∧
    RegInv (registerTask v t s).1 ∧
    RegInv (deleteTaskHandler id db s).2.2 ∧
    RegInv (loadTasksFromDB v db s) := by
  refine ⟨?_, regInv_registerTask v t s h, regInv_deleteTaskHandler id db s h,
    regInv_loadTasks v db s h⟩
  intro k hk
  simp [initState, mapLookup] at hk

/-- C5: the dispatched request uses method GET whenever the definition's
method is not exactly `POST`; for `POST` it carries the stored body and a
default `Content-Type: application/json`; when the header text decodes,
each decoded header overwrites any default (the surviving value for a key
is always one of the configured values for that key); when the header text
is present but malformed, the request proceeds with only the defaults. -/
theorem runTask_request_construction (P : DispatchParams) (t : Task) (hr : HttpRequest)
    (h : buildRequest P t = .ok hr) :
    hr.method = (if t.Method == "POST" then "POST" else "GET") ∧
    hr.url = t.URL ∧
    hr.body = (if t.Method == "POST" then some t.Body else none) ∧
    ((t.Headers = "" →
        hr.header = (if t.Method == "POST"
          then [("Content-Type", "application/json")] else [])) ∧
      (t.Headers ≠ "" → P.parseHeaderJSON t.Headers = none →
        hr.header = (if t.Method == "POST"
          then [("Content-Type", "application/json")] else [])) ∧
      (∀ hs, t.Headers ≠ "" → P.parseHeaderJSON t.Headers = some hs →
        hr.header = applyHeaderList
          (if t.Method == "POST" then [("Content-Type", "application/json")] else []) hs ∧
        ∀ k v, (k, v) ∈ hs → ∃ v₁,
          mapLookup hr.header (canonicalMIMEHeaderKey k) = some v₁ ∧
          ∃ k₁, (k₁, v₁) ∈ hs ∧
            canonicalMIMEHeaderKey k₁ = canonicalMIMEHeaderKey k)) := by
  have hct : headerSet ([] : List (String × String)) "Content-Type" "application/json"
      = [("Content-Type", "application/json")] := by
    rw [headerSet, show canonicalMIMEHeaderKey "Content-Type" = "Content-Type" from rfl]
    rfl
  unfold buildRequest at h
  have hover : ∀ base hs, hr.header = applyHeaderList base hs →
      ∀ k v, (k, v) ∈ hs → ∃ v₁,
        mapLookup hr.header (canonicalMIMEHeaderKey k) = some v₁ ∧
        ∃ k₁, (k₁, v₁) ∈ hs ∧
          canonicalMIMEHeaderKey k₁ = canonicalMIMEHeaderKey k := by
    intro base hs hh k v hmem
    have hsome := lastOverride_isSome_of_mem k v hs hmem
    cases hlast : lastOverride (canonicalMIMEHeaderKey k) hs with
    | none => rw [hlast] at hsome; cases hsome
    | some v₁ =>
        obtain ⟨k₁, hk₁, hc₁⟩ := lastOverride_mem _ hs v₁ hlast
        refine ⟨v₁, ?_, k₁, hk₁, hc₁⟩
        rw [hh, mapLookup_applyHeaderList, hlast]
  by_cases hm : t.Method = "POST"
  · simp only [hm, beq_self_eq_true, if_true] at h ⊢
    cases hurl : P.parseURLErr t.URL with
    | some e => rw [newRequest, hurl] at h; cases h
    | none =>
        rw [newRequest, hurl] at h
        simp only [hct] at h
        by_cases hh : t.Headers = ""
        · simp only [hh, beq_self_eq_true, if_true] at h
          cases h
          exact ⟨rfl, rfl, rfl, fun _ => rfl, fun hc => absurd hh hc,
            fun hs hc => absurd hh hc⟩
        · simp only [beq_iff_eq, hh, if_false] at h
          cases hj : P.parseHeaderJSON t.Headers with
          | none =>
              rw [hj] at h
              cases h
              exact ⟨rfl, rfl, rfl, fun hc => absurd hc hh, fun _ _ => rfl,
                fun hs _ hc => Option.noConfusion hc⟩
          | some hs =>
              rw [hj] at h
              cases h
              refine ⟨rfl, rfl, rfl, fun hc => absurd hc hh,
                fun _ hc => Option.noConfusion hc, ?_⟩
              intro hs₁ _ hc
              cases Option.some.inj hc
              exact ⟨rfl, hover _ _ rfl⟩
  · simp only [beq_iff_eq, hm, if_false] at h ⊢
    cases hurl : P.parseURLErr t.URL with
    | some e => rw [newRequest, hurl] at h; cases h
    | none =>
        rw [newRequest, hurl] at h
        by_cases hh : t.Headers = ""
        · simp only [hh, beq_self_eq_true, if_true] at h
          cases h
          exact ⟨rfl, rfl, rfl, fun _ => rfl, fun hc => absurd hh hc,
            fun hs hc => absurd hh hc⟩
        · simp only [beq_iff_eq, hh, if_false] at h
          cases hj : P.parseHeaderJSON t.Headers with
          | none =>
              rw [hj] at h
              cases h
              exact ⟨rfl, rfl, rfl, fun hc => absurd hc hh, fun _ _ => rfl,
                fun hs _ hc => Option.noConfusion hc⟩
          | some hs =>
              rw [hj] at h
              cases h
              refine ⟨rfl, rfl, rfl, fun hc => absurd hc hh,
                fun _ hc => Option.noConfusion hc, ?_⟩
              intro hs₁ _ hc
              cases Option.some.inj hc
              exact ⟨rfl, hover _ _ rfl⟩

/-- C6: the one record a dispatch writes has exactly this shape: a short
failure description with an empty payload on request-construction failure,
transport failure and response-read failure (the latter embedding the
received status), and on success the status line with the numeric response
status together with the full, uncapped response body. -/
theorem runTask_record_shape (P : DispatchParams) (net : NetOutcome) (now : Nat)
    (id : Int) (s : RegState) (logs : List Log) (t : Task)
    (h : mapLookup s.tasks id = some t) :
    (∀ e, buildRequest P t = .error e →
      (runTask P net now id s logs).logs
        = logs ++ [⟨(logs.length : Int) + 1, t.ID, now, "创建请求失败: " ++ e, ""⟩]) ∧
    (∀ hr, buildRequest P t = .ok hr →
      (∀ m, net = .transportErr m →
        (runTask P net now id s logs).logs
          = logs ++ [⟨(logs.length : Int) + 1, t.ID, now, "请求失败: " ++ m, ""⟩]) ∧
      (∀ st m, net = .readErr st m →
        (runTask P net now id s logs).logs
          = logs ++ [⟨(logs.length : Int) + 1, t.ID, now,
              "状态: " ++ toString st ++ ", 读取响应体失败: " ++ m, ""⟩]) ∧
      (∀ st body, net = .success st body →
        (runTask P net now id s logs).logs
          = logs ++ [⟨(logs.length : Int) + 1, t.ID, now,
              "状态: " ++ toString st, body⟩])) := by
  constructor
  · intro e he
    simp [runTask, h, he, appendLog]
  · intro hr hok
    refine ⟨?_, ?_, ?_⟩
    · intro m hnet
      subst hnet
      simp [runTask, h, hok, appendLog]
    · intro st m hnet
      subst hnet
      simp [runTask, h, hok, appendLog]
    · intro st body hnet
      subst hnet
      simp [runTask, h, hok, appendLog]

/-! ### Concrete inputs used by counterexamples and witnesses -/

/-- A concrete task definition used to exercise registration. -/
def dupTask : Task := ⟨1, "job", "* * * * * *", "http://example.test", "GET", "", "", 10⟩

/-- A cron-expression validator accepting every expression (the six-field
expression of `dupTask` is in particular valid for the seconds-enabled
parser). -/
def acceptCron : String → Bool := fun _ => true

/-- Registry state after `dupTask` has been registered once. -/
def dupState : RegState := (registerTask acceptCron dupTask initState).1

/-- C1 counterexample: registering `dupTask` a second time while its first
handle (entry id 0) is still stored does not release the prior
trigger-engine entry — afterwards the engine holds two active timer
entries for identifier 1, and entry 0 is still among them, refuting "first
removes the prior handle" and "never leaves more than one active timer
entry". -/
theorem reRegister_duplicate_timer_counterexample :
    mapLookup dupState.cronIDs 1 = some 0 ∧
    (registerTask acceptCron dupTask dupState).1.engine.entries
      = [⟨0, "* * * * * *", 1⟩, ⟨1, "* * * * * *", 1⟩] ∧
    ((registerTask acceptCron dupTask dupState).1.engine.entries.countP
      (fun en => en.taskId == 1)) = 2 := by
  refine ⟨rfl, rfl, rfl⟩

/-- C1 (amended): re-registering a task identifier that already has a
handle overwrites the handle-map binding with the new handle, but does not
release the prior handle from the trigger engine: every previously active
engine entry, the prior timer included, remains active afterwards. -/
theorem reRegister_overwrites_handle_only (v : String → Bool) (t : Task)
    (s : RegState) (e : Nat) (hv : v t.CronExpr = true)
    (_he : mapLookup s.cronIDs t.ID = some e) :
    (registerTask v t s).2 = true ∧
    mapLookup (registerTask v t s).1.cronIDs t.ID = some s.engine.nextId ∧
    ∀ en ∈ s.engine.entries, en ∈ (registerTask v t s).1.engine.entries := by
  refine ⟨by rw [registerTask_snd, hv], ?_,
    fun en hen => registerTask_engine_mono v t s en hen⟩
  rw [registerTask_cronIDs_lookup]
  simp [hv]

/-- Witness for the amended C1 theorem at the concrete re-registration of
`dupTask` over `dupState`. -/
theorem reRegister_overwrites_handle_only_witness :
    (registerTask acceptCron dupTask dupState).2 = true ∧
    mapLookup (registerTask acceptCron dupTask dupState).1.cronIDs dupTask.ID
      = some dupState.engine.nextId ∧
    ∀ en ∈ dupState.engine.entries,
      en ∈ (registerTask acceptCron dupTask dupState).1.engine.entries :=
  reRegister_overwrites_handle_only acceptCron dupTask dupState 0 rfl rfl

/-- C4 counterexample: the delete operation on identifier 5, never
registered (empty database and registry), reports the not-found error to
the caller instead of returning without error; the registry and database
are indeed left unchanged. -/
theorem unregister_unknown_reports_error :
    (deleteTaskHandler 5 [] initState).1 = Except.error "任务不存在" ∧
    (deleteTaskHandler 5 [] initState).2.1 = [] ∧
    (deleteTaskHandler 5 [] initState).2.2 = initState := by
  refine ⟨rfl, rfl, rfl⟩

/-- C4 (amended): for an identifier found in the database, the delete
operation succeeds, removes it from both registry maps, releases its
trigger-engine handle (no active entry with that handle survives) and
drops its database row; for an identifier absent from the database — never
registered or already unregistered — it leaves database and registry
unchanged but reports a not-found error to the caller. -/
theorem deleteTask_behavior (id : Int) (db : List Task) (s : RegState) :
    (∀ task, db.find? (fun t => t.ID == id) = some task →
      (deleteTaskHandler id db s).1 = .ok "任务已删除" ∧
      mapLookup (deleteTaskHandler id db s).2.2.tasks id = none ∧
      mapLookup (deleteTaskHandler id db s).2.2.cronIDs id = none ∧
      (∀ eid, mapLookup s.cronIDs id = some eid →
        ∀ en ∈ (deleteTaskHandler id db s).2.2.engine.entries, en.eid ≠ eid) ∧
      (deleteTaskHandler id db s).2.1.all (fun t => !(t.ID == id)) = true) ∧
    (db.find? (fun t => t.ID == id) = none →
      deleteTaskHandler id db s = (.error "任务不存在", db, s)) := by
  constructor
  · intro task hf
    have hid : task.ID = id := by
      have h₁ := List.find?_some hf
      simpa using h₁
    subst hid
    unfold deleteTaskHandler
    rw [hf]
    dsimp only
    cases hc : mapLookup s.cronIDs task.ID with
    | some entryID =>
        refine ⟨rfl, ?_, ?_, ?_, ?_⟩
        · rw [mapLookup_erase]
          simp
        · rw [mapLookup_erase]
          simp
        · intro eid heid en hen hne
          cases Option.some.inj heid
          have hmem := List.mem_filter.mp hen
          rw [hne] at hmem
          simp at hmem
        · rw [List.all_eq_true]
          intro t ht
          exact (List.mem_filter.mp ht).2
    | none =>
        refine ⟨rfl, ?_, ?_, ?_, ?_⟩
        · rw [mapLookup_erase]
          simp
        · rw [hc]
        · intro eid heid
          exact Option.noConfusion heid
        · rw [List.all_eq_true]
          intro t ht
          exact (List.mem_filter.mp ht).2
  · intro hf
    unfold deleteTaskHandler
    rw [hf]

/-- Witness for the amended C4 theorem: deleting identifier 1 from a
database holding `dupTask` succeeds and clears it everywhere; deleting
identifier 7, unknown to that database, changes nothing and reports
not-found. -/
theorem deleteTask_behavior_witness :
    ((deleteTaskHandler 1 [dupTask] dupState).1 = .ok "任务已删除" ∧
      mapLookup (deleteTaskHandler 1 [dupTask] dupState).2.2.tasks 1 = none ∧
      mapLookup (deleteTaskHandler 1 [dupTask] dupState).2.2.cronIDs 1 = none ∧
      (∀ eid, mapLookup dupState.cronIDs 1 = some eid →
        ∀ en ∈ (deleteTaskHandler 1 [dupTask] dupState).2.2.engine.entries,
          en.eid ≠ eid) ∧
      (deleteTaskHandler 1 [dupTask] dupState).2.1.all (fun t => !(t.ID == 1)) = true) ∧
    deleteTaskHandler 7 [dupTask] dupState = (.error "任务不存在", [dupTask], dupState) :=
  ⟨(deleteTask_behavior 1 [dupTask] dupState).1 dupTask rfl,
   (deleteTask_behavior 7 [dupTask] dupState).2 rfl⟩

/-! ### Witnesses for the remaining claim theorems -/

/-- Dispatch parameters whose URL check accepts and whose header text never
decodes. -/
def plainParams : DispatchParams := ⟨fun _ => none, fun _ => none⟩

/-- A cron-expression validator rejecting every expression, standing in for
the parser's behaviour on a malformed expression such as `not-a-cron`. -/
def rejectCron : String → Bool := fun _ => false

/-- A task whose cron expression does not parse. -/
def badCronTask : Task := ⟨2, "bad", "not-a-cron", "http://example.test", "GET", "", "", 10⟩

/-- Witness for C2 at a dispatch of task 1 out of `dupState`. -/
theorem runTask_exactly_one_record_witness :
    ∃ r, (runTask plainParams (.success 200 "ok") 7 1 dupState []).logs = [] ++ [r] ∧
      (runTask plainParams (.success 200 "ok") 7 1 dupState []).outcome = .dispatched :=
  (runTask_exactly_one_record plainParams (.success 200 "ok") 7 1 dupState []).2
    dupTask rfl

/-- Witness for C3: registering `badCronTask` under the rejecting parser and
then running it now. -/
theorem registerTask_bad_cron_witness :
    (registerTask rejectCron badCronTask initState).2 = false ∧
    mapLookup (registerTask rejectCron badCronTask initState).1.tasks badCronTask.ID
      = some badCronTask ∧
    (registerTask rejectCron badCronTask initState).1.cronIDs = initState.cronIDs ∧
    (registerTask rejectCron badCronTask initState).1.engine = initState.engine ∧
    (runTask plainParams (.success 200 "ok") 7 badCronTask.ID
        (registerTask rejectCron badCronTask initState).1 []).outcome = .dispatched ∧
    ∃ r, (runTask plainParams (.success 200 "ok") 7 badCronTask.ID
        (registerTask rejectCron badCronTask initState).1 []).logs = [] ++ [r] :=
  registerTask_bad_cron rejectCron plainParams (.success 200 "ok") 7 [] badCronTask
    initState rfl

/-- Dispatch parameters whose header text decodes to two headers, one of
them colliding (after canonicalization) with the default content type. -/
def headerParams : DispatchParams :=
  ⟨fun _ => none, fun _ => some [("x-token", "abc"), ("content-type", "text/plain")]⟩

/-- A POST task with a configured header text. -/
def postTask : Task :=
  ⟨3, "post", "*/5 * * * * *", "http://example.test/ok", "POST", "hdr", "payload", 10⟩

/-- The request `buildRequest headerParams postTask` constructs: the decoded
`content-type` header has overwritten the default JSON content type. -/
def postRequest : HttpRequest :=
  ⟨"POST", "http://example.test/ok", some "payload",
    [("Content-Type", "text/plain"), ("X-Token", "abc")]⟩

/-- Witness for C5 at the concrete POST request construction. -/
theorem runTask_request_construction_witness :
    postRequest.method = (if postTask.Method == "POST" then "POST" else "GET") ∧
    postRequest.url = postTask.URL ∧
    postRequest.body = (if postTask.Method == "POST" then some postTask.Body else none) ∧
    ((postTask.Headers = "" →
        postRequest.header = (if postTask.Method == "POST"
          then [("Content-Type", "application/json")] else [])) ∧
      (postTask.Headers ≠ "" → headerParams.parseHeaderJSON postTask.Headers = none →
        postRequest.header = (if postTask.Method == "POST"
          then [("Content-Type", "application/json")] else [])) ∧
      (∀ hs, postTask.Headers ≠ "" →
        headerParams.parseHeaderJSON postTask.Headers = some hs →
        postRequest.header = applyHeaderList
          (if postTask.Method == "POST"
            then [("Content-Type", "application/json")] else []) hs ∧
        ∀ k v, (k, v) ∈ hs → ∃ v₁,
          mapLookup postRequest.header (canonicalMIMEHeaderKey k) = some v₁ ∧
          ∃ k₁, (k₁, v₁) ∈ hs ∧
            canonicalMIMEHeaderKey k₁ = canonicalMIMEHeaderKey k)) :=
  runTask_request_construction headerParams postTask postRequest rfl

/-- Witness for C6 at a successful dispatch of task 1 out of `dupState`. -/
theorem runTask_record_shape_witness :
    (∀ e, buildRequest plainParams dupTask = .error e →
      (runTask plainParams (.success 200 "body") 7 1 dupState []).logs
        = [] ++ [⟨(List.length ([] : List Log) : Int) + 1, dupTask.ID, 7,
            "创建请求失败: " ++ e, ""⟩]) ∧
    (∀ hr, buildRequest plainParams dupTask = .ok hr →
      (∀ m, NetOutcome.success 200 "body" = .transportErr m →
        (runTask plainParams (.success 200 "body") 7 1 dupState []).logs
          = [] ++ [⟨(List.length ([] : List Log) : Int) + 1, dupTask.ID, 7,
              "请求失败: " ++ m, ""⟩]) ∧
      (∀ st m, NetOutcome.success 200 "body" = .readErr st m →
        (runTask plainParams (.success 200 "body") 7 1 dupState []).logs
          = [] ++ [⟨(List.length ([] : List Log) : Int) + 1, dupTask.ID, 7,
              "状态: " ++ toString st ++ ", 读取响应体失败: " ++ m, ""⟩]) ∧
      (∀ st body, NetOutcome.success 200 "body" = .success st body →
        (runTask plainParams (.success 200 "body") 7 1 dupState []).logs
          = [] ++ [⟨(List.length ([] : List Log) : Int) + 1, dupTask.ID, 7,
              "状态: " ++ toString st, body⟩])) :=
  runTask_record_shape plainParams (.success 200 "body") 7 1 dupState [] dupTask rfl

/-- A create request with an unset (zero) timeout. -/
def createReq : Task := ⟨9, "n", "* * * * * *", "http://u", "GET", "", "", 0⟩

/-- The definition the create operation stores for `createReq`: the timeout
has been defaulted to 10 seconds. -/
def createdTask : Task := ⟨9, "n", "* * * * * *", "http://u", "GET", "", "", 10⟩

/-- A task whose huge (but positive, hence accepted unchanged) timeout
makes the int64 nanosecond product overflow. -/
def hugeTimeoutTask : Task :=
  ⟨4, "huge", "* * * * * *", "http://example.test", "GET", "", "", 10000000000⟩

/-- C7 counterexample: a create request with timeout 10^10 seconds is
accepted as-is (the default only replaces non-positive values), yet at
dispatch the int64 product 10^10 * 10^9 wraps to -8446744073709551616 ns —
not the definition's timeout in nanoseconds, and a non-positive
`http.Client` timeout means no deadline at all — refuting "applies the
definition's timeout as a hard deadline". -/
theorem timeout_overflow_counterexample :
    (createTaskHandler acceptCron true hugeTimeoutTask [] initState).1
      = Except.ok hugeTimeoutTask ∧
    0 < hugeTimeoutTask.Timeout ∧
    (runTask plainParams (.success 200 "ok") 7 4
        (registerTask acceptCron hugeTimeoutTask initState).1 []).clientTimeoutNs
      = some (-8446744073709551616) ∧
    ¬ (runTask plainParams (.success 200 "ok") 7 4
        (registerTask acceptCron hugeTimeoutTask initState).1 []).clientTimeoutNs
      = some (hugeTimeoutTask.Timeout * 1000000000) := by
  refine ⟨rfl, by decide, rfl, by decide⟩

/-- Witness for the amended C7 at the concrete creation of `createReq`,
whose defaulted 10-second timeout fits int64 comfortably. -/
theorem task_timeout_witness :
    0 < createdTask.Timeout ∧
    (createReq.Timeout ≤ 0 → createdTask.Timeout = 10) ∧
    (0 < createReq.Timeout → createdTask.Timeout = createReq.Timeout) ∧
    (∀ P net now id s₂ logs t, mapLookup s₂.tasks id = some t →
      (runTask P net now id s₂ logs).clientTimeoutNs
        = some (wrapInt64 (t.Timeout * 1000000000)) ∧
      (-(2 ^ 63) ≤ t.Timeout * 1000000000 → t.Timeout * 1000000000 < 2 ^ 63 →
        (runTask P net now id s₂ logs).clientTimeoutNs
          = some (t.Timeout * 1000000000))) :=
  task_timeout_positive_and_applied acceptCron true createReq [] [createdTask]
    initState (registerTask acceptCron createdTask initState).1 createdTask rfl

/-- Witness for C8 at a two-task database with distinct identifiers. -/
theorem bootstrap_registers_each_copy_witness :
    serverStartState acceptCron [dupTask, badCronTask]
      = loadTasksFromDB acceptCron [dupTask, badCronTask] initState ∧
    ∀ t ∈ [dupTask, badCronTask],
      mapLookup (serverStartState acceptCron [dupTask, badCronTask]).tasks t.ID
        = some t ∧
      (acceptCron t.CronExpr = true →
        ∃ en ∈ (serverStartState acceptCron [dupTask, badCronTask]).engine.entries,
          en.expr = t.CronExpr ∧ en.taskId = t.ID) :=
  bootstrap_registers_each_copy acceptCron [dupTask, badCronTask]
    (by simp [List.pairwise_cons, dupTask, badCronTask])

/-- A create request with an empty (missing) name. -/
def emptyNameReq : Task := ⟨0, "", "* * * * * *", "http://u", "GET", "", "", 10⟩

/-- Witness for C9 at the concrete rejected creation of `emptyNameReq`. -/
theorem createTask_missing_field_witness :
    createTaskHandler acceptCron true emptyNameReq [] initState
      = (.error "任务名称、Cron表达式和URL是必填项", [], initState) :=
  createTask_missing_field acceptCron true emptyNameReq [] initState (Or.inl rfl)

/-- The subset invariant holds in `dupState`. -/
theorem regInv_dupState : RegInv dupState := by
  intro k hk
  rw [show dupState.cronIDs = [((1 : Int), (0 : Nat))] from rfl] at hk
  rw [show dupState.tasks = [((1 : Int), dupTask)] from rfl]
  simp only [mapLookup] at hk ⊢
  by_cases h : (1 : Int) = k
  · simp [beq_iff_eq, h]
  · simp [beq_iff_eq, h] at hk

/-- Witness for C10 over the concrete state `dupState`. -/
theorem handle_keys_subset_witness :
    RegInv initState ∧
    RegInv (registerTask acceptCron badCronTask dupState).1 ∧
    RegInv (deleteTaskHandler 1 [dupTask] dupState).2.2 ∧
    RegInv (loadTasksFromDB acceptCron [dupTask] dupState) :=
  handle_keys_subset_task_keys acceptCron badCronTask 1 [dupTask] dupState
    regInv_dupState

end Pipigo
